import Mathlib

/-!
Verification of the OLAF neighbourhood chat protocol implementation
(server.py, client.py, message.py, src/server_as_client.py, src/utils/crypto.py)
against its natural-language specification.

The Python sources are shallowly embedded:

* Python byte strings become `List Nat` (each element < 256 where relevant).
* Python dicts (which preserve insertion order, update keys in place, and
  have unique keys) become association lists with `dictGet` / `dictSet` /
  `dictPop` mirroring `d[k]`, `d[k] = v`, `d.pop(k)`.
* The RSA primitives of the `cryptography` library are modelled as textbook
  RSA over `Nat`: a key is a modulus/exponent pair, signing raises the
  (injectively encoded) message representative to the private exponent
  modulo n, verification raises the signature to the public exponent and
  compares.  The SHA-256/PSS layer is idealised as the injective encoding
  `encodeBytes` (the standard symbolic treatment: the hash is assumed
  collision-free), and base64 transport of signatures, which is a bijection,
  is elided.  Randomised paddings (PSS salt, OAEP) are modelled by their
  deterministic cores; this preserves exactly the input/output dependencies
  the sources rely on.
* Stateful handlers become pure functions from a `ServerState` plus the
  received frame to a new `ServerState` together with the observable output
  actions (deliveries to client links, broadcast flags).
-/

/-! ## Bytes, decimal rendering, and the injective message encoding -/

/-- A Python byte string, one `Nat` per byte. -/
abbrev Bytes := List Nat

/-- Fuel-driven little-endian base-`b` digits, written structurally so that
it evaluates inside the kernel (`Nat.digits` is well-founded and does not). -/
def digitsAuxFuel (b : Nat) : Nat → Nat → List Nat
  | 0, _ => []
  | _ + 1, 0 => []
  | fuel + 1, n + 1 => (n + 1) % b :: digitsAuxFuel b fuel ((n + 1) / b)

/-- Executable little-endian base-`b` digits of `n`. -/
def natDigits (b n : Nat) : List Nat := digitsAuxFuel b n n

theorem digitsAuxFuel_eq (b : Nat) (hb : 1 < b) :
    ∀ fuel n, n ≤ fuel → digitsAuxFuel b fuel n = Nat.digits b n := by
  intro fuel
  induction fuel with
  | zero =>
    intro n hn
    have hn0 : n = 0 := by omega
    subst hn0
    simp [digitsAuxFuel]
  | succ fuel ih =>
    intro n hn
    match n with
    | 0 => simp [digitsAuxFuel]
    | n + 1 =>
      rw [show digitsAuxFuel b (fuel + 1) (n + 1)
          = (n + 1) % b :: digitsAuxFuel b fuel ((n + 1) / b) from rfl]
      rw [ih ((n + 1) / b) (by
        have hdiv : (n + 1) / b < n + 1 := Nat.div_lt_self (Nat.succ_pos n) hb
        omega)]
      rw [Nat.digits_def' hb (Nat.succ_pos n)]

theorem natDigits_eq (b n : Nat) (hb : 1 < b) : natDigits b n = Nat.digits b n :=
  digitsAuxFuel_eq b hb n n le_rfl

/-- Model of Python `str(counter).encode("utf-8")`: the ASCII decimal digits
of the counter, most significant first (`str(0)` is `"0"`). -/
def decimal (c : Nat) : Bytes :=
  if c = 0 then [48] else (natDigits 10 c).reverse.map (fun d => d + 48)

/-- Injective encoding of a byte string into a natural number (base 256 with
a leading-one sentinel).  This models the deterministic, collision-free
message representative that hashing-plus-padding produces inside the
`cryptography` library calls. -/
def encodeBytes (bs : Bytes) : Nat :=
  Nat.ofDigits 256 (bs ++ [1])

/-- Inverse of `encodeBytes`: strip the sentinel digit. -/
def decodeBytes (m : Nat) : Bytes :=
  (natDigits 256 m).dropLast

theorem digits_encodeBytes (bs : Bytes) (h : ∀ b ∈ bs, b < 256) :
    Nat.digits 256 (encodeBytes bs) = bs ++ [1] := by
  refine Nat.digits_ofDigits 256 (by norm_num) _ ?_ ?_
  · intro l hl
    rcases List.mem_append.mp hl with hl | hl
    · exact h l hl
    · simp only [List.mem_singleton] at hl
      omega
  · intro hne
    rw [List.getLast_concat]
    omega

theorem decodeBytes_encodeBytes (bs : Bytes) (h : ∀ b ∈ bs, b < 256) :
    decodeBytes (encodeBytes bs) = bs := by
  rw [decodeBytes, natDigits_eq 256 _ (by norm_num), digits_encodeBytes bs h,
    List.dropLast_concat]

theorem encodeBytes_injOn (bs1 bs2 : Bytes) (h1 : ∀ b ∈ bs1, b < 256)
    (h2 : ∀ b ∈ bs2, b < 256) (heq : encodeBytes bs1 = encodeBytes bs2) :
    bs1 = bs2 := by
  have := congrArg Nat.digits (congrArg (fun x => x) heq)
  have hd : Nat.digits 256 (encodeBytes bs1) = Nat.digits 256 (encodeBytes bs2) := by
    rw [heq]
  rw [digits_encodeBytes bs1 h1, digits_encodeBytes bs2 h2] at hd
  exact List.append_cancel_right hd

theorem decimal_bytes_lt (c : Nat) : ∀ b ∈ decimal c, b < 256 := by
  intro b hb
  unfold decimal at hb
  rw [natDigits_eq 10 c (by norm_num)] at hb
  split at hb
  · simp only [List.mem_singleton] at hb
    omega
  · rcases List.mem_map.mp hb with ⟨d, hd, rfl⟩
    have : d < 10 := Nat.digits_lt_base (by norm_num) (List.mem_reverse.mp hd)
    omega

theorem decimal_ne_nil (c : Nat) : decimal c ≠ [] := by
  unfold decimal
  rw [natDigits_eq 10 c (by norm_num)]
  split
  · simp
  · intro h
    rcases List.map_eq_nil_iff.mp h with h
    have := List.reverse_eq_nil_iff.mp h
    exact (Nat.digits_ne_nil_iff_ne_zero.mpr (by assumption)) this

theorem decimal_injective (c1 c2 : Nat) (h : decimal c1 = decimal c2) : c1 = c2 := by
  have hmapinj : Function.Injective (List.map (fun d : Nat => d + 48)) :=
    List.map_injective_iff.mpr (fun a b hab => by omega)
  have key : ∀ c : Nat, c ≠ 0 → decimal c ≠ [48] := by
    intro c hc habs
    unfold decimal at habs
    rw [natDigits_eq 10 c (by norm_num), if_neg hc] at habs
    have hmaps : List.map (fun d : Nat => d + 48) (Nat.digits 10 c).reverse
        = List.map (fun d : Nat => d + 48) [0] := by
      simpa using habs
    have hrev := hmapinj hmaps
    have hd : Nat.digits 10 c = [0] := by
      have := congrArg List.reverse hrev
      simpa using this
    have h0 := Nat.ofDigits_digits 10 c
    rw [hd] at h0
    simp [Nat.ofDigits] at h0
    exact hc h0.symm
  by_cases h1 : c1 = 0 <;> by_cases h2 : c2 = 0
  · omega
  · exact absurd (by rw [← h, h1]; rfl) (key c2 h2)
  · exact absurd (by rw [h, h2]; rfl) (key c1 h1)
  · unfold decimal at h
    rw [natDigits_eq 10 c1 (by norm_num), natDigits_eq 10 c2 (by norm_num),
      if_neg h1, if_neg h2] at h
    have hrev := List.reverse_injective (hmapinj h)
    have h0 := Nat.ofDigits_digits 10 c1
    rw [hrev, Nat.ofDigits_digits 10 c2] at h0
    exact h0.symm

/-! ## RSA model (the `cryptography` library calls used by the sources) -/

/-- Model of an RSA key object: the modulus together with the exponent that
this half of the keypair uses (public exponent for an `RSAPublicKey`,
private exponent for an `RSAPrivateKey`). -/
structure RSAKey where
  n : Nat
  exp : Nat
deriving DecidableEq

/-- Model of `private_key.sign(msg, PSS(MGF1(SHA256), MAX_LENGTH), SHA256)`:
the message representative is raised to the private exponent modulo n.
The base64 encoding of the signature (a bijection) is elided. -/
def rsaSign (sk : RSAKey) (msg : Bytes) : Nat :=
  (encodeBytes msg % sk.n) ^ sk.exp % sk.n

/-- Model of `public_key.verify(sig, msg, PSS(...), SHA256)` (wrapped by the
source in a try/except that turns `InvalidSignature` into `False`):
the signature is raised to the public exponent modulo n and compared with
the message representative. -/
def rsaVerify (pk : RSAKey) (signature : Nat) (msg : Bytes) : Bool :=
  signature ^ pk.exp % pk.n == encodeBytes msg % pk.n

/-- Embedding of `src/utils/crypto.py` `sign_message(message, counter,
private_key)`: the signed bytes are
`message.encode("utf-8") + str(counter).encode("utf-8")`. -/
def sign_message (message : Bytes) (counter : Nat) (sk : RSAKey) : Nat :=
  rsaSign sk (message ++ decimal counter)

/-- Embedding of `src/utils/crypto.py` `verify_signature(public_key,
signature, message, counter)`: verifies over the same concatenation
`message.encode + str(counter).encode`, returning `False` on
`InvalidSignature`. -/
def verify_signature (pk : RSAKey) (signature : Nat) (message : Bytes)
    (counter : Nat) : Bool :=
  rsaVerify pk signature (message ++ decimal counter)

/-- Fermat step of RSA correctness: if `p` is prime and `p - 1` divides
`E - 1` (with `1 ≤ E`) then exponentiation by `E` fixes every residue
modulo `p`. -/
theorem pow_modEq_self_of_dvd (p E m : Nat) (hp : Nat.Prime p)
    (hdvd : (p - 1) ∣ (E - 1)) (hE : 1 ≤ E) : m ^ E ≡ m [MOD p] := by
  haveI : Fact (Nat.Prime p) := ⟨hp⟩
  have h1 : ((m : ZMod p)) ^ E = (m : ZMod p) := by
    obtain ⟨t, ht⟩ := hdvd
    have hE2 : E = (p - 1) * t + 1 := by omega
    by_cases hz : (m : ZMod p) = 0
    · rw [hz, zero_pow (by omega)]
    · rw [hE2, pow_add, pow_one, pow_mul, ZMod.pow_card_sub_one_eq_one hz,
        one_pow, one_mul]
  refine (ZMod.natCast_eq_natCast_iff _ _ _).mp ?_
  rw [Nat.cast_pow]
  exact h1

/-- Correctness of textbook RSA: for distinct primes `p`, `q` and exponents
with `e * d ≡ 1 (mod (p-1)(q-1))`, exponentiation by `e * d` fixes every
residue modulo `p * q`. -/
theorem rsa_correct (p q e d m : Nat) (hp : Nat.Prime p) (hq : Nat.Prime q)
    (hpq : p ≠ q) (hed : (e * d) % ((p - 1) * (q - 1)) = 1) :
    m ^ (e * d) % (p * q) = m % (p * q) := by
  have hed1 : 1 ≤ e * d := by
    by_contra hlt
    have : e * d = 0 := by omega
    rw [this, Nat.zero_mod] at hed
    exact absurd hed (by norm_num)
  have hdiv : (p - 1) * (q - 1) ∣ (e * d - 1) := by
    have hmod := Nat.div_add_mod (e * d) ((p - 1) * (q - 1))
    exact ⟨e * d / ((p - 1) * (q - 1)), by omega⟩
  have hdp : (p - 1) ∣ (e * d - 1) := dvd_trans (dvd_mul_right _ _) hdiv
  have hdq : (q - 1) ∣ (e * d - 1) := dvd_trans (dvd_mul_left _ _) hdiv
  have h1 : m ^ (e * d) ≡ m [MOD p] := pow_modEq_self_of_dvd p (e * d) m hp hdp hed1
  have h2 : m ^ (e * d) ≡ m [MOD q] := pow_modEq_self_of_dvd q (e * d) m hq hdq hed1
  have hco : Nat.Coprime p q := (Nat.coprime_primes hp hq).mpr hpq
  exact (Nat.modEq_and_modEq_iff_modEq_mul hco).mp ⟨h1, h2⟩

/-- Packaging of the RSA keypair hypotheses used throughout. -/
def ValidRSAPair (p q e d : Nat) : Prop :=
  Nat.Prime p ∧ Nat.Prime q ∧ p ≠ q ∧ (e * d) % ((p - 1) * (q - 1)) = 1

theorem valid_pair_pos (p q e d : Nat) (h : ValidRSAPair p q e d) : 0 < p * q :=
  Nat.mul_pos h.1.pos h.2.1.pos

/-- Signing then verifying the same message under a valid keypair succeeds. -/
theorem rsa_sign_verify (p q e d : Nat) (h : ValidRSAPair p q e d)
    (msg : Bytes) :
    rsaVerify ⟨p * q, e⟩ (rsaSign ⟨p * q, d⟩ msg) msg = true := by
  obtain ⟨hp, hq, hpq, hed⟩ := h
  have key : ((encodeBytes msg % (p * q)) ^ d % (p * q)) ^ e % (p * q)
      = encodeBytes msg % (p * q) := by
    rw [← Nat.pow_mod, ← pow_mul, mul_comm d e,
      rsa_correct p q e d _ hp hq hpq hed]
    exact Nat.mod_mod_of_dvd _ dvd_rfl
  simp [rsaVerify, rsaSign, key]

/-- Verifying a valid signature against a different message representative
fails, provided both representatives are reduced (below the modulus). -/
theorem rsa_verify_other_msg (p q e d : Nat) (h : ValidRSAPair p q e d)
    (msg msg2 : Bytes)
    (hmem : ∀ b ∈ msg, b < 256) (hmem2 : ∀ b ∈ msg2, b < 256)
    (hlt : encodeBytes msg < p * q) (hlt2 : encodeBytes msg2 < p * q)
    (hne : msg ≠ msg2) :
    rsaVerify ⟨p * q, e⟩ (rsaSign ⟨p * q, d⟩ msg) msg2 = false := by
  obtain ⟨hp, hq, hpq, hed⟩ := h
  have key : ((encodeBytes msg % (p * q)) ^ d % (p * q)) ^ e % (p * q)
      = encodeBytes msg % (p * q) := by
    rw [← Nat.pow_mod, ← pow_mul, mul_comm d e,
      rsa_correct p q e d _ hp hq hpq hed]
    exact Nat.mod_mod_of_dvd _ dvd_rfl
  have hEne : encodeBytes msg ≠ encodeBytes msg2 := fun hE =>
    hne (encodeBytes_injOn msg msg2 hmem hmem2 hE)
  have : ((encodeBytes msg % (p * q)) ^ d % (p * q)) ^ e % (p * q)
      ≠ encodeBytes msg2 % (p * q) := by
    rw [key, Nat.mod_eq_of_lt hlt, Nat.mod_eq_of_lt hlt2]
    exact hEne
  simpa [rsaVerify, rsaSign] using this

/-- Verifying any other (reduced) signature value against the message fails. -/
theorem rsa_verify_other_sig (p q e d : Nat) (h : ValidRSAPair p q e d)
    (msg : Bytes) (sig2 : Nat) (hs : sig2 < p * q)
    (hne : sig2 ≠ rsaSign ⟨p * q, d⟩ msg) :
    rsaVerify ⟨p * q, e⟩ sig2 msg = false := by
  obtain ⟨hp, hq, hpq, hed⟩ := h
  have hn : 0 < p * q := Nat.mul_pos hp.pos hq.pos
  by_contra habs
  have htrue : rsaVerify ⟨p * q, e⟩ sig2 msg = true := by
    cases hcase : rsaVerify ⟨p * q, e⟩ sig2 msg
    · exact absurd hcase habs
    · rfl
  have heq : sig2 ^ e % (p * q) = encodeBytes msg % (p * q) := by
    have := of_decide_eq_true (by simpa [rsaVerify] using htrue)
    simpa using Nat.eq_of_beq_eq_true (by simpa [rsaVerify] using htrue)
  set sig1 := rsaSign ⟨p * q, d⟩ msg with hsig1
  have key1 : sig1 ^ e % (p * q) = encodeBytes msg % (p * q) := by
    show ((encodeBytes msg % (p * q)) ^ d % (p * q)) ^ e % (p * q) = _
    rw [← Nat.pow_mod, ← pow_mul, mul_comm d e,
      rsa_correct p q e d _ hp hq hpq hed]
    exact Nat.mod_mod_of_dvd _ dvd_rfl
  have hchain : sig2 % (p * q) = sig1 % (p * q) := by
    have e2 : sig2 ^ (e * d) % (p * q) = sig1 ^ (e * d) % (p * q) := by
      rw [pow_mul, pow_mul, Nat.pow_mod (sig2 ^ e) d, Nat.pow_mod (sig1 ^ e) d,
        heq, key1]
    rw [rsa_correct p q e d sig2 hp hq hpq hed,
      rsa_correct p q e d sig1 hp hq hpq hed] at e2
    exact e2
  have hlt1 : sig1 < p * q := by
    show (encodeBytes msg % (p * q)) ^ d % (p * q) < p * q
    exact Nat.mod_lt _ hn
  rw [Nat.mod_eq_of_lt hs, Nat.mod_eq_of_lt hlt1] at hchain
  exact hne hchain

/-! ## Python dict model -/

/-- Python dict lookup `d.get(k)` / `d[k]`: first entry with the key. -/
def dictGet {α β : Type} [DecidableEq α] (d : List (α × β)) (k : α) : Option β :=
  match d with
  | [] => none
  | (k2, v) :: rest => if k2 = k then some v else dictGet rest k

/-- Python dict assignment `d[k] = v`: update in place if present (dicts
preserve insertion order), append otherwise. -/
def dictSet {α β : Type} [DecidableEq α] (d : List (α × β)) (k : α) (v : β) :
    List (α × β) :=
  match d with
  | [] => [(k, v)]
  | (k2, v2) :: rest =>
    if k2 = k then (k, v) :: rest else (k2, v2) :: dictSet rest k v

/-- Python dict removal `d.pop(k)`: drop the first entry with the key. -/
def dictPop {α β : Type} [DecidableEq α] (d : List (α × β)) (k : α) :
    List (α × β) :=
  match d with
  | [] => []
  | (k2, v2) :: rest => if k2 = k then rest else (k2, v2) :: dictPop rest k

/-- Iteration order of a Python dict: its keys in insertion order. -/
def dictKeys {α β : Type} (d : List (α × β)) : List α := d.map Prod.fst

theorem dictSet_idem {α β : Type} [DecidableEq α] (d : List (α × β)) (k : α)
    (v : β) : dictSet (dictSet d k v) k v = dictSet d k v := by
  induction d with
  | nil => simp [dictSet]
  | cons hd tl ih =>
    obtain ⟨k2, v2⟩ := hd
    by_cases hk : k2 = k
    · simp [dictSet, hk]
    · simp [dictSet, hk, ih]

theorem dictGet_set_self {α β : Type} [DecidableEq α] (d : List (α × β))
    (k : α) (v : β) : dictGet (dictSet d k v) k = some v := by
  induction d with
  | nil => simp [dictSet, dictGet]
  | cons hd tl ih =>
    obtain ⟨k2, v2⟩ := hd
    by_cases hk : k2 = k
    · simp [dictSet, dictGet, hk]
    · simp [dictSet, dictGet, hk, ih]

theorem dictGet_set_ne {α β : Type} [DecidableEq α] (d : List (α × β))
    (k q : α) (v : β) (h : q ≠ k) :
    dictGet (dictSet d k v) q = dictGet d q := by
  have hk2 : ¬ k = q := fun hkq => h hkq.symm
  induction d with
  | nil => simp [dictSet, dictGet, hk2]
  | cons hd tl ih =>
    obtain ⟨k2, v2⟩ := hd
    by_cases hk : k2 = k
    · subst hk
      simp [dictSet, dictGet, hk2]
    · by_cases hq : k2 = q
      · simp [dictSet, dictGet, hk, hq, hk2, h]
      · simp [dictSet, dictGet, hk, hq, ih]

theorem dictGet_pop_ne {α β : Type} [DecidableEq α] (d : List (α × β))
    (k q : α) (h : q ≠ k) : dictGet (dictPop d k) q = dictGet d q := by
  have hk2 : ¬ k = q := fun hkq => h hkq.symm
  induction d with
  | nil => simp [dictPop]
  | cons hd tl ih =>
    obtain ⟨k2, v2⟩ := hd
    by_cases hk : k2 = k
    · subst hk
      simp [dictPop, dictGet, hk2]
    · by_cases hq : k2 = q
      · simp [dictPop, dictGet, hk, hq, hk2, h]
      · simp [dictPop, dictGet, hk, hq, ih]

theorem dictGet_eq_none_iff {α β : Type} [DecidableEq α] (d : List (α × β))
    (k : α) : dictGet d k = none ↔ k ∉ dictKeys d := by
  induction d with
  | nil => simp [dictGet, dictKeys]
  | cons hd tl ih =>
    obtain ⟨k2, v2⟩ := hd
    by_cases hk : k2 = k
    · simp [dictGet, dictKeys, hk]
    · have hne : ¬ k = k2 := fun hkq => hk hkq.symm
      simp [dictGet, dictKeys, hk, ih, hne]

theorem dictKeys_set_mem {α β : Type} [DecidableEq α] (d : List (α × β))
    (k : α) (v : β) (h : k ∈ dictKeys d) :
    dictKeys (dictSet d k v) = dictKeys d := by
  induction d with
  | nil => simp [dictKeys] at h
  | cons hd tl ih =>
    obtain ⟨k2, v2⟩ := hd
    by_cases hk : k2 = k
    · simp [dictSet, dictKeys, hk]
    · have hmem : k ∈ dictKeys tl := by
        simp [dictKeys] at h
        rcases h with h | h
        · exact absurd h.symm hk
        · simpa [dictKeys] using h
      have hrec := ih hmem
      simp only [dictKeys] at hrec
      simp [dictSet, dictKeys, hk, hrec]

/-! ## Server state and inner messages (server.py, src/server_as_client.py) -/

/-- A transport link (websocket connection), identified by a number. -/
abbrev Link := Nat

/-- Per-client record stored in `Server.clients`: the PEM public key saved
by `receive_hello` (modelled as the parsed key) and the fingerprint that
`receive_public_chat` may add later.  The Python dict holding these fields
is never empty, so its truthiness is `isSome` of the lookup. -/
structure ClientInfo where
  public_key : RSAKey
  fingerprint : Option String
deriving DecidableEq

/-- Parsed inner message of a `signed_data` envelope (`data` after
`json.loads`), with the optional fields the handlers read. -/
structure InnerData where
  itype : String
  public_key : Option RSAKey
  sender : Option String
  message : Option String
deriving DecidableEq

/-- A `signed_data` envelope `{type, data, counter, signature}`.
`data` is the parsed inner object (`none` models a missing field);
`dataRaw` is the exact wire byte string of the `data` value, the bytes a
verifier would check the signature over (the envelope preserves them). -/
structure SignedEnvelope where
  data : Option InnerData
  dataRaw : Bytes
  counter : Nat
  signature : Nat
deriving DecidableEq

/-- The mutable state of one server: `Server.clients`,
`Server.neighbour_websockets`, and the `ServerAsClient` neighbourhood state
`active_servers` and `clients_across_servers` (the roster). -/
structure ServerState where
  clients : List (Link × ClientInfo)
  neighbour_websockets : List (Link × String)
  active_servers : List (Link × String)
  clients_across_servers : List (String × List String)
deriving DecidableEq

/-- Embedding of `ServerAsClient.save_clients(server_url, client_list)`:
replace the roster entry for that URL wholesale. -/
def save_clients (roster : List (String × List String)) (server_url : String)
    (clientList : List String) : List (String × List String) :=
  dictSet roster server_url clientList

/-- Embedding of `Server.receive_hello`: store the advertised public key for
this link in `clients` (a fresh record, no fingerprint yet).  The
`send_client_update` broadcast it triggers does not change local state. -/
def receive_hello (st : ServerState) (ws : Link) (pk : RSAKey) : ServerState :=
  { st with clients := dictSet st.clients ws { public_key := pk, fingerprint := none } }

/-- Embedding of `Server.receive_public_chat(websocket, request)`.
Returns the new state, the list of client links the envelope is forwarded
to (in dict iteration order), and whether the envelope is re-broadcast to
the neighbourhood (`if sender:` — the record dict is never empty, so its
truthiness is `isSome`). -/
def receive_public_chat (st : ServerState) (ws : Link)
    (request : SignedEnvelope) : ServerState × List Link × Bool :=
  match request.data with
  | none => (st, [], false)
  | some d =>
    match d.sender, d.message with
    | some fp, some _ =>
      let senderRec := dictGet st.clients ws
      if (dictGet st.neighbour_websockets ws).isSome then
        -- the link belongs to a neighbour server: deliver to every local
        -- client, re-broadcast only if the link somehow also has a client
        -- record (`if sender:`)
        (st, (dictKeys st.clients).filter (fun c => c != ws), senderRec.isSome)
      else
        match senderRec with
        | none => (st, [], false)   -- cannot find the client: drop
        | some info =>
          let newClients := dictSet st.clients ws ({ info with fingerprint := some fp })
          let st2 := { st with clients := newClients }
          ((st2, (dictKeys st2.clients).filter (fun c => c != ws), true))
    | _, _ => (st, [], false)       -- missing sender or message: drop
  
/-- Outcome of `Server.handle_message` on a `signed_data` frame. -/
inductive HandleResult
  | dropped
  | errored
  | handledChat
  | handledHello
  | handledServerHello
  | handledPublicChat (delivered : List Link) (rebroadcast : Bool)
deriving DecidableEq

/-- Embedding of the `signed_data` branch of `Server.handle_message`.
The source reads `counter` and `signature` but never checks either
(`# TODO: Handle counter and signature`); the dispatch inspects only the
inner `type`. -/
def handle_signed_data (st : ServerState) (ws : Link)
    (message : SignedEnvelope) : ServerState × HandleResult :=
  match message.data with
  | none => (st, HandleResult.dropped)
  | some d =>
    if d.itype = "chat" then
      (st, HandleResult.handledChat)       -- receive_chat only logs
    else if d.itype = "hello" then
      match d.public_key with
      | some pk => (receive_hello st ws pk, HandleResult.handledHello)
      | none => (st, HandleResult.errored) -- Python KeyError
    else if d.itype = "public_chat" then
      let r := receive_public_chat st ws message
      (r.1, HandleResult.handledPublicChat r.2.1 r.2.2)
    else if d.itype = "server_hello" then
      match d.sender with
      | some u =>
        ({ st with neighbour_websockets := dictSet st.neighbour_websockets ws u },
          HandleResult.handledServerHello)
      | none => (st, HandleResult.errored)
    else
      (st, HandleResult.dropped)

/-- Embedding of `Server.send_client_list`: one reply entry per cached
roster pair, in roster order. -/
structure ClientListEntry where
  address : String
  clients : List String
deriving DecidableEq

/-- The `servers` field of the `client_list` reply built by
`Server.send_client_list` from `neighbourhood.clients_across_servers`. -/
def send_client_list (st : ServerState) : List ClientListEntry :=
  st.clients_across_servers.map (fun entry => { address := entry.1, clients := entry.2 })

/-- Embedding of the URL resolution in `Server.receive_client_update`: an
inbound server connection is looked up in `neighbour_websockets`, an
outbound one in `neighbourhood.active_servers`; a miss raises `KeyError`
(modelled as `none`). -/
def resolve_sender_url (st : ServerState) (ws : Link) : Option String :=
  match dictGet st.neighbour_websockets ws with
  | some u => some u
  | none => dictGet st.active_servers ws

/-- Embedding of `Server.receive_client_update`: resolve the peer URL for
the websocket and replace the roster entry of that peer with the provided list
via `save_clients`. -/
def receive_client_update (st : ServerState) (ws : Link)
    (clientList : List String) : Option ServerState :=
  match resolve_sender_url st ws with
  | some u =>
    some ({ st with clients_across_servers := save_clients st.clients_across_servers u clientList })
  | none => none

/-! ## Send-failure paths (server.py send_response, server_as_client.send_request) -/

/-- Embedding of `ServerAsClient.find_active_server(server_url)`: the first
active websocket registered under that URL. -/
def find_active_server (activeServers : List (Link × String)) (u : String) :
    Option Link :=
  match activeServers with
  | [] => none
  | (w, url) :: rest => if url = u then some w else find_active_server rest u

/-- Embedding of `ServerAsClient.remove_active_server(server_url)`: pop the
found websocket from `active_servers`; if none is found, only log. -/
def remove_active_server (activeServers : List (Link × String)) (u : String) :
    List (Link × String) :=
  match find_active_server activeServers u with
  | none => activeServers
  | some w => dictPop activeServers w

/-- Embedding of the `except` branch of `Server.send_response`: on a failed
send, pop a client link from `clients`, or remove the URL of a neighbour link
from the active set; anything else is only logged. -/
def send_response_fail (st : ServerState) (ws : Link) : ServerState :=
  match dictGet st.clients ws with
  | some _ => { st with clients := dictPop st.clients ws }
  | none =>
    match dictGet st.neighbour_websockets ws with
    | some u => { st with active_servers := remove_active_server st.active_servers u }
    | none => st

/-- Embedding of the `except` branch of `ServerAsClient.send_request`: a
failed send is only logged; no state changes. -/
def send_request_fail (st : ServerState) : ServerState :=
  st

/-! ## Sender-side signing (client.py and src/server_as_client.py) -/

/-- Embedding of `Client.sign_message(message)`: RSA-PSS over exactly the
bytes passed in. -/
def client_sign_message (sk : RSAKey) (message : Bytes) : Nat :=
  rsaSign sk message

/-- The signature `Client.send_message` places in its outgoing
`signed_data` envelope: `self.sign_message(json.dumps(message_data).encode())`.
`jsonData` stands for the canonical JSON bytes of the data object; the
counter argument is what the `counter` field of the envelope carries, which the
client never mixes into the signed bytes. -/
def client_send_signature (sk : RSAKey) (jsonData : Bytes) (counter : Nat) : Nat :=
  client_sign_message sk jsonData

/-- The signature `ServerAsClient.send_server_hello` places in its outgoing
`signed_data` envelope: `crypto.sign_message(json.dumps(data), counter,
private_key)`, which signs `json(data) ++ decimal(counter)`. -/
def server_hello_signature (sk : RSAKey) (jsonData : Bytes) (counter : Nat) : Nat :=
  sign_message jsonData counter sk

/-- The signing input the specification mandates for every outgoing
envelope: `utf8(canonical_json(data)) || utf8(decimal(counter))`. -/
def spec_signed_bytes (jsonData : Bytes) (counter : Nat) : Bytes :=
  jsonData ++ decimal counter

/-! ## Hybrid encryption (message.py) -/

/-- Embedding of `Message.encrypt_key(receiver_public_key, aes_key)`:
RSA-OAEP key wrap, modelled by the textbook-RSA core (base64 elided). -/
def encrypt_key (receiverPublicKey : RSAKey) (aesKey : Bytes) : Nat :=
  (encodeBytes aesKey % receiverPublicKey.n) ^ receiverPublicKey.exp % receiverPublicKey.n

/-- Embedding of `Message.decrypt_key(aesKey)`: RSA-OAEP unwrap with the
private key. -/
def decrypt_key (privateKey : RSAKey) (wrapped : Nat) : Bytes :=
  decodeBytes (wrapped ^ privateKey.exp % privateKey.n)

/-- A Python value that is either a `str` or a `bytes` object, as stored in
`Message.encrypted_content` (the source is inconsistent about which). -/
inductive PyVal
  | str (s : String)
  | bytes (b : Bytes)
deriving DecidableEq

/-- Python `.encode()`: defined on `str`, an `AttributeError` on `bytes`. -/
def pyStrEncode : PyVal → Except String Bytes
  | PyVal.str s => Except.ok (s.data.map Char.toNat)
  | PyVal.bytes _ => Except.error "AttributeError"

/-- Toy keystream for the AES-GCM model: one byte per position, derived
from key and IV.  Stands for the CTR keystream of AES-256-GCM. -/
def gcmKeystreamByte (key iv : Bytes) (i : Nat) : Nat :=
  (encodeBytes key + 257 * encodeBytes iv + 101 * i) % 256

/-- Model of `encryptor.update(pt) + encryptor.finalize()` for
`Cipher(AES(key), GCM(iv))`: the GCM ciphertext body.  Note this is only
the body; the authentication tag lives in `encryptor.tag`, which the
source never reads, so no tag is ever appended. -/
def gcmCiphertextBody (key iv : Bytes) (pt : Bytes) : Bytes :=
  List.zipWith (fun b i => (b + gcmKeystreamByte key iv i) % 256) pt
    (List.range pt.length)

/-- Model of `decryptor.update(ct) + decryptor.finalize()` for
`Cipher(AES(key), GCM(iv))` constructed WITHOUT an authentication tag, as
`Message.decrypt_chat_message` does: the `cryptography` library raises
`ValueError` from `finalize()` when GCM decrypts without a tag. -/
def gcmDecryptNoTag (_key _iv _ct : Bytes) : Except String Bytes :=
  Except.error "ValueError: Authentication tag must be provided when decrypting"

/-- Stand-in for `json.dumps({participants, message}).encode()` built by
`Message.encrypt_chat_message`. -/
def jsonChatData (participants : List String) (message : String) : Bytes :=
  (String.intercalate "," participants).data.map Char.toNat
    ++ message.data.map Char.toNat

/-- The fields of a `Message` object that the chat encryption touches. -/
structure MessageState where
  content : String
  participants : List String
  iv : Option Bytes
  encrypted_content : Option PyVal
  symm_keys : List Nat
deriving DecidableEq

/-- Embedding of `Message.encrypt_chat_message(receiver_public_keys)`.
The random `iv` (16 bytes) and `aes_key` (32 bytes) of `os.urandom` are
passed in explicitly.  The GCM ciphertext body is stored as a `bytes`
value; the tag is never read, hence never appended. -/
def encrypt_chat_message (m : MessageState) (iv aesKey : Bytes)
    (receiverPublicKeys : List RSAKey) : MessageState :=
  let ct := gcmCiphertextBody aesKey iv (jsonChatData m.participants m.content)
  { m with
    iv := some iv
    encrypted_content := some (PyVal.bytes ct)
    symm_keys := m.symm_keys ++ receiverPublicKeys.map (fun pk => encrypt_key pk aesKey) }

/-- Embedding of `Message.decrypt_chat_message(key)`: calls `.encode()` on
the stored ciphertext, then runs the GCM decryptor that was built without
an authentication tag. -/
def decrypt_chat_message (m : MessageState) (key : Bytes) : Except String Bytes :=
  match m.encrypted_content, m.iv with
  | some content, some iv =>
    match pyStrEncode content with
    | Except.error e => Except.error e
    | Except.ok ct => gcmDecryptNoTag key iv ct
  | _, _ => Except.error "missing ciphertext or iv"

/-! ## Further crypto helper lemmas -/

theorem bytes_append_decimal_lt (data : Bytes) (c : Nat)
    (h : ∀ b ∈ data, b < 256) : ∀ b ∈ data ++ decimal c, b < 256 := by
  intro b hb
  rcases List.mem_append.mp hb with hb | hb
  · exact h b hb
  · exact decimal_bytes_lt c b hb

theorem rsaSign_pow_e (p q e d : Nat) (h : ValidRSAPair p q e d) (msg : Bytes)
    (hlt : encodeBytes msg < p * q) :
    (rsaSign ⟨p * q, d⟩ msg) ^ e % (p * q) = encodeBytes msg := by
  obtain ⟨hp, hq, hpq, hed⟩ := h
  show ((encodeBytes msg % (p * q)) ^ d % (p * q)) ^ e % (p * q) = _
  rw [← Nat.pow_mod, ← pow_mul, mul_comm d e,
    rsa_correct p q e d _ hp hq hpq hed, Nat.mod_mod_of_dvd _ dvd_rfl,
    Nat.mod_eq_of_lt hlt]

theorem rsaSign_injOn (p q e d : Nat) (h : ValidRSAPair p q e d)
    (msg msg2 : Bytes) (hb : ∀ b ∈ msg, b < 256) (hb2 : ∀ b ∈ msg2, b < 256)
    (hlt : encodeBytes msg < p * q) (hlt2 : encodeBytes msg2 < p * q)
    (heq : rsaSign ⟨p * q, d⟩ msg = rsaSign ⟨p * q, d⟩ msg2) : msg = msg2 := by
  have k1 := rsaSign_pow_e p q e d h msg hlt
  have k2 := rsaSign_pow_e p q e d h msg2 hlt2
  rw [heq, k2] at k1
  exact encodeBytes_injOn msg msg2 hb hb2 k1.symm

theorem wrap_unwrap_general (p q e d : Nat) (h : ValidRSAPair p q e d)
    (aesKey : Bytes) (hb : ∀ b ∈ aesKey, b < 256)
    (hlt : encodeBytes aesKey < p * q) :
    decrypt_key ⟨p * q, d⟩ (encrypt_key ⟨p * q, e⟩ aesKey) = aesKey := by
  obtain ⟨hp, hq, hpq, hed⟩ := h
  unfold decrypt_key encrypt_key
  have key : ((encodeBytes aesKey % (p * q)) ^ e % (p * q)) ^ d % (p * q)
      = encodeBytes aesKey := by
    rw [← Nat.pow_mod, ← pow_mul,
      rsa_correct p q e d _ hp hq hpq hed, Nat.mod_mod_of_dvd _ dvd_rfl,
      Nat.mod_eq_of_lt hlt]
  rw [key]
  exact decodeBytes_encodeBytes aesKey hb

/-! ## Claim C3: sign/verify round-trip and mutation sensitivity -/

/-- C3: for every data byte string, counter, and valid RSA keypair, a
signature produced by `sign_message` verifies under `verify_signature`;
and changing only the data, only the counter, or only the signature makes
`verify_signature` return false (for reduced representatives). -/
theorem sign_verify_roundtrip_and_mutation
    (p q e d : Nat) (h : ValidRSAPair p q e d)
    (data data2 : Bytes) (c c2 sig2 : Nat)
    (hdb : ∀ b ∈ data, b < 256) (hdb2 : ∀ b ∈ data2, b < 256)
    (hlt : encodeBytes (data ++ decimal c) < p * q)
    (hlt2 : encodeBytes (data2 ++ decimal c) < p * q)
    (hlt3 : encodeBytes (data ++ decimal c2) < p * q)
    (hsig : sig2 < p * q) :
    verify_signature ⟨p * q, e⟩ (sign_message data c ⟨p * q, d⟩) data c = true
    ∧ (data2 ≠ data →
        verify_signature ⟨p * q, e⟩ (sign_message data c ⟨p * q, d⟩) data2 c = false)
    ∧ (c2 ≠ c →
        verify_signature ⟨p * q, e⟩ (sign_message data c ⟨p * q, d⟩) data c2 = false)
    ∧ (sig2 ≠ sign_message data c ⟨p * q, d⟩ →
        verify_signature ⟨p * q, e⟩ sig2 data c = false) := by
  refine ⟨?_, ?_, ?_, ?_⟩
  · exact rsa_sign_verify p q e d h (data ++ decimal c)
  · intro hne
    refine rsa_verify_other_msg p q e d h (data ++ decimal c) (data2 ++ decimal c)
      (bytes_append_decimal_lt data c hdb) (bytes_append_decimal_lt data2 c hdb2)
      hlt hlt2 ?_
    intro heq
    exact hne (List.append_cancel_right heq).symm
  · intro hne
    refine rsa_verify_other_msg p q e d h (data ++ decimal c) (data ++ decimal c2)
      (bytes_append_decimal_lt data c hdb) (bytes_append_decimal_lt data c2 hdb)
      hlt hlt3 ?_
    intro heq
    exact hne (decimal_injective c c2 (List.append_cancel_left heq)).symm
  · intro hne
    exact rsa_verify_other_sig p q e d h (data ++ decimal c) sig2 hsig hne

/-- Witness for C3 at the concrete keypair p = 293, q = 307, e = 5,
d = 35741, with data `[]` against `[49]` and counter 1 against 2. -/
theorem sign_verify_roundtrip_and_mutation_witness :
    ValidRSAPair 293 307 5 35741
    ∧ (verify_signature ⟨293 * 307, 5⟩ (sign_message [] 1 ⟨293 * 307, 35741⟩) [] 1 = true
      ∧ (([49] : Bytes) ≠ [] →
          verify_signature ⟨293 * 307, 5⟩ (sign_message [] 1 ⟨293 * 307, 35741⟩) [49] 1 = false)
      ∧ ((2 : Nat) ≠ 1 →
          verify_signature ⟨293 * 307, 5⟩ (sign_message [] 1 ⟨293 * 307, 35741⟩) [] 2 = false)
      ∧ ((0 : Nat) ≠ sign_message [] 1 ⟨293 * 307, 35741⟩ →
          verify_signature ⟨293 * 307, 5⟩ 0 [] 1 = false)) := by
  have hpair : ValidRSAPair 293 307 5 35741 :=
    ⟨by norm_num, by norm_num, by norm_num, by norm_num⟩
  refine ⟨hpair, ?_⟩
  exact sign_verify_roundtrip_and_mutation 293 307 5 35741 hpair [] [49] 1 2 0
    (by decide) (by decide) (by decide) (by decide) (by decide) (by decide)

/-! ## Concrete fixtures -/

/-- Toy public key (n = 293 * 307, e = 5) with `ValidRSAPair 293 307 5 35741`. -/
def pkToy : RSAKey := ⟨89951, 5⟩

/-- Matching toy private key (d = 35741). -/
def skToy : RSAKey := ⟨89951, 35741⟩

/-- A client record as `receive_hello` stores it. -/
def clientRecToy : ClientInfo := ⟨pkToy, none⟩

/-- A server with two registered local clients (links 1 and 2), no
neighbours, and an empty roster. -/
def stTwoClients : ServerState := ⟨[(1, clientRecToy), (2, clientRecToy)], [], [], []⟩

/-- The parsed inner `public_chat` data of the fixture envelope. -/
def publicChatInner : InnerData :=
  { itype := "public_chat", public_key := none,
    sender := some "fp", message := some "hi" }

/-- A `signed_data` envelope carrying a `public_chat` from fingerprint
`fp` with the given counter and signature; its wire data bytes are `[49]`. -/
def publicChatEnvelope (c sig : Nat) : SignedEnvelope :=
  { data := some publicChatInner, dataRaw := [49], counter := c, signature := sig }

/-! ## Claim C1: the server dispatches signed envelopes without verifying -/

/-- C1 (code bug): the signature 0 of the concrete envelope does NOT verify
under the resolvable public key of the sender (bound to link 1 by a prior
hello), yet `handle_signed_data` dispatches the inner `public_chat`,
delivering it to link 2 and re-broadcasting — the envelope is accepted,
not dropped.  The `handle_message` of the server reads `signature` but never
calls `verify_signature` (the source marks this `# TODO`). -/
theorem handle_message_accepts_invalid_signature :
    verify_signature pkToy (publicChatEnvelope 1 0).signature
      (publicChatEnvelope 1 0).dataRaw (publicChatEnvelope 1 0).counter = false
    ∧ (handle_signed_data stTwoClients 1 (publicChatEnvelope 1 0)).2
      = HandleResult.handledPublicChat [2] true := by
  constructor
  · decide
  · rfl

/-! ## Claim C2: no replay protection -/

/-- C2 (code bug): after the server has processed envelopes with counters
3 and 7 from link 1, a replayed envelope with counter 7 from the same link
is dispatched and delivered again (`handledPublicChat [2] true`), not
dropped as a replay; the server state retains no last-accepted counter
anywhere. -/
theorem handle_message_accepts_replayed_counter :
    (handle_signed_data
      (handle_signed_data
        (handle_signed_data stTwoClients 1 (publicChatEnvelope 3 0)).1
        1 (publicChatEnvelope 7 0)).1
      1 (publicChatEnvelope 7 0)).2
    = HandleResult.handledPublicChat [2] true := by
  rfl

/-! ## Claim C4: what the senders actually sign -/

/-- C4 (code bug): `ServerAsClient.send_server_hello` signs the mandated
concatenation `json(data) ++ decimal(counter)`, but `Client.send_message`
signs only `json(data)`: at json bytes `[97]` and counter 1 the signature
of the client differs from the one computed over the mandated bytes. -/
theorem client_signature_not_over_counter :
    server_hello_signature skToy [97] 1 = rsaSign skToy (spec_signed_bytes [97] 1)
    ∧ spec_signed_bytes [97] 1 = [97, 49]
    ∧ client_send_signature skToy [97] 1 ≠ rsaSign skToy (spec_signed_bytes [97] 1) := by
  have hpair : ValidRSAPair 293 307 5 35741 :=
    ⟨by norm_num, by norm_num, by norm_num, by norm_num⟩
  refine ⟨rfl, by decide, ?_⟩
  intro heq
  have hinj := rsaSign_injOn 293 307 5 35741 hpair [97] (spec_signed_bytes [97] 1)
    (by decide) (by decide) (by decide) (by decide) heq
  have : ([97] : Bytes) = [97, 49] := by
    rw [hinj]
    decide
  exact absurd this (by decide)

/-! ## Claim C5: hybrid encryption round-trip -/

/-- The message object before encryption in the C5 scenario. -/
def msgStateToy : MessageState :=
  { content := "hi", participants := [], iv := none,
    encrypted_content := none, symm_keys := [] }

/-- C5 (code bug): the RSA-OAEP key wrap round-trips
(`decrypt_key (encrypt_key k) = k`), but the AES-GCM chat
round-trip fails: `encrypt_chat_message` stores the ciphertext as `bytes`
(and never appends the authentication tag), and `decrypt_chat_message`
then calls `.encode()` on it, raising `AttributeError` instead of
returning the plaintext. -/
theorem hybrid_roundtrip_code_bug :
    decrypt_key skToy (encrypt_key pkToy [1, 2]) = [1, 2]
    ∧ decrypt_chat_message
        (encrypt_chat_message msgStateToy [7] [1, 2] [pkToy]) [1, 2]
      = Except.error "AttributeError" := by
  constructor
  · have hpair : ValidRSAPair 293 307 5 35741 :=
      ⟨by norm_num, by norm_num, by norm_num, by norm_num⟩
    exact wrap_unwrap_general 293 307 5 35741 hpair [1, 2] (by decide) (by decide)
  · rfl

/-! ## Claim C8: the client_list reply lacks the own entry of the server -/

/-- C8 (code bug): starting from an empty server, a client registers via
`receive_hello` on link 1 (so its key is in `clients`), yet the
`client_list` reply built by `send_client_list` is empty — the roster is
only ever populated by `receive_client_update` from peers, never with the
own entry of the local server, so no reply entry contains the local client. -/
theorem client_list_missing_own_entry :
    send_client_list (receive_hello ⟨[], [], [], []⟩ 1 pkToy) = []
    ∧ dictGet (receive_hello ⟨[], [], [], []⟩ 1 pkToy).clients 1
      = some { public_key := pkToy, fingerprint := none } := by
  constructor
  · rfl
  · rfl

/-! ## Claim C6: client_update replaces the roster entry of the peer wholesale -/

/-- Replace the roster component of a server state (notation helper for
the record update `receive_client_update` performs). -/
def set_roster (st : ServerState) (r : List (String × List String)) : ServerState :=
  { st with clients_across_servers := r }

/-- Unfolding lemma: when the sender URL resolves, `receive_client_update`
replaces exactly the roster component. -/
theorem receive_client_update_eq (st : ServerState) (ws : Link) (u : String)
    (clientList : List String) (h : resolve_sender_url st ws = some u) :
    receive_client_update st ws clientList
      = some (set_roster st (save_clients st.clients_across_servers u clientList)) := by
  unfold receive_client_update
  rw [h]
  rfl

/-- C6: ingesting a `client_update` from the peer resolved as `u` replaces
`roster[u]` wholesale with the provided list, leaves the entry of every
other peer untouched, and applying the same update twice equals applying it
once. -/
theorem client_update_replaces_wholesale
    (st : ServerState) (ws : Link) (u q2 : String) (clientList : List String)
    (h1 : resolve_sender_url st ws = some u) (hq : q2 ≠ u) :
    receive_client_update st ws clientList
      = some (set_roster st (save_clients st.clients_across_servers u clientList))
    ∧ dictGet (save_clients st.clients_across_servers u clientList) u
      = some clientList
    ∧ dictGet (save_clients st.clients_across_servers u clientList) q2
      = dictGet st.clients_across_servers q2
    ∧ receive_client_update
        (set_roster st (save_clients st.clients_across_servers u clientList))
        ws clientList
      = receive_client_update st ws clientList := by
  have hres2 : resolve_sender_url
      (set_roster st (save_clients st.clients_across_servers u clientList)) ws
      = some u := by
    simpa [resolve_sender_url, set_roster] using h1
  refine ⟨?_, ?_, ?_, ?_⟩
  · exact receive_client_update_eq st ws u clientList h1
  · exact dictGet_set_self st.clients_across_servers u clientList
  · exact dictGet_set_ne st.clients_across_servers u q2 clientList hq
  · rw [receive_client_update_eq _ ws u clientList hres2,
      receive_client_update_eq st ws u clientList h1]
    simp [set_roster, save_clients, dictSet_idem]

/-- Witness for C6: a server whose link 9 is the inbound link of peer
`"B"`, with an existing roster for `"B"` and `"C"`. -/
theorem client_update_replaces_wholesale_witness :
    resolve_sender_url ⟨[], [(9, "B")], [], [("B", ["old"]), ("C", ["keep"])]⟩ 9
      = some "B"
    ∧ ("C" : String) ≠ "B"
    ∧ (receive_client_update ⟨[], [(9, "B")], [], [("B", ["old"]), ("C", ["keep"])]⟩ 9 ["new1", "new2"]
        = some (set_roster ⟨[], [(9, "B")], [], [("B", ["old"]), ("C", ["keep"])]⟩
            (save_clients [("B", ["old"]), ("C", ["keep"])] "B" ["new1", "new2"]))
      ∧ dictGet (save_clients [("B", ["old"]), ("C", ["keep"])] "B" ["new1", "new2"]) "B"
        = some ["new1", "new2"]
      ∧ dictGet (save_clients [("B", ["old"]), ("C", ["keep"])] "B" ["new1", "new2"]) "C"
        = dictGet [("B", ["old"]), ("C", ["keep"])] "C"
      ∧ receive_client_update
          (set_roster ⟨[], [(9, "B")], [], [("B", ["old"]), ("C", ["keep"])]⟩
            (save_clients [("B", ["old"]), ("C", ["keep"])] "B" ["new1", "new2"]))
          9 ["new1", "new2"]
        = receive_client_update ⟨[], [(9, "B")], [], [("B", ["old"]), ("C", ["keep"])]⟩ 9 ["new1", "new2"]) := by
  refine ⟨by decide, by decide, ?_⟩
  exact client_update_replaces_wholesale
    ⟨[], [(9, "B")], [], [("B", ["old"]), ("C", ["keep"])]⟩ 9 "B" "C"
    ["new1", "new2"] (by decide) (by decide)

/-! ## Claim C7: public_chat loop prevention -/

theorem filter_ne_of_not_mem (l : List Link) (ws : Link) (h : ws ∉ l) :
    l.filter (fun c => c != ws) = l := by
  refine List.filter_eq_self.mpr ?_
  intro a ha
  have : a ≠ ws := fun heq => h (heq ▸ ha)
  simpa using this

/-- C7: a well-formed `public_chat` arriving on a neighbour link (with no
client record for that link) leaves the state unchanged, is delivered to
the local clients exactly once each (the delivery list is exactly the
client key list, which is duplicate-free), and is not re-broadcast to
peers; and in general `receive_public_chat` only sets the re-broadcast
flag when the arrival link has a client record, i.e. only the `public_chat`
of a local client is broadcast to the neighbourhood. -/
theorem public_chat_from_peer_no_rebroadcast
    (st : ServerState) (ws : Link) (u : String) (request : SignedEnvelope)
    (d : InnerData) (f m : String)
    (st2 : ServerState) (ws2 : Link) (request2 : SignedEnvelope)
    (hdata : request.data = some d) (hs : d.sender = some f)
    (hm : d.message = some m)
    (h1 : dictGet st.neighbour_websockets ws = some u)
    (h2 : dictGet st.clients ws = none)
    (h3 : (dictKeys st.clients).Nodup) :
    (receive_public_chat st ws request).1 = st
    ∧ (receive_public_chat st ws request).2.1 = dictKeys st.clients
    ∧ ((receive_public_chat st ws request).2.1).Nodup
    ∧ (receive_public_chat st ws request).2.2 = false
    ∧ ((receive_public_chat st2 ws2 request2).2.2 = true →
        dictGet st2.clients ws2 ≠ none) := by
  have hnotmem : ws ∉ dictKeys st.clients := (dictGet_eq_none_iff _ _).mp h2
  have hfilter := filter_ne_of_not_mem (dictKeys st.clients) ws hnotmem
  have hmain : receive_public_chat st ws request
      = (st, dictKeys st.clients, false) := by
    simp [receive_public_chat, hdata, hs, hm, h1, h2, hfilter]
  refine ⟨by rw [hmain], by rw [hmain], by rw [hmain]; exact h3, by rw [hmain], ?_⟩
  intro hb hnone
  rcases hq : request2.data with _ | d2
  · simp [receive_public_chat, hq] at hb
  · rcases hsnd : d2.sender with _ | f2
    · simp [receive_public_chat, hq, hsnd] at hb
    · rcases hmsg : d2.message with _ | m2
      · simp [receive_public_chat, hq, hsnd, hmsg] at hb
      · by_cases hnb : (dictGet st2.neighbour_websockets ws2).isSome
        · simp [receive_public_chat, hq, hsnd, hmsg, hnb, hnone] at hb
        · simp [receive_public_chat, hq, hsnd, hmsg, hnb, hnone] at hb

/-- A server with local clients on links 2 and 3 and peer `"B"` inbound on
link 9. -/
def stPeerCase : ServerState :=
  ⟨[(2, clientRecToy), (3, clientRecToy)], [(9, "B")], [], []⟩

/-- Witness for C7 on `stPeerCase`, with the `public_chat` envelope
arriving on the neighbour link 9. -/
theorem public_chat_from_peer_no_rebroadcast_witness :
    ((publicChatEnvelope 1 0).data = some publicChatInner
    ∧ publicChatInner.sender = some "fp"
    ∧ publicChatInner.message = some "hi"
    ∧ dictGet stPeerCase.neighbour_websockets 9 = some "B"
    ∧ dictGet stPeerCase.clients 9 = none
    ∧ (dictKeys stPeerCase.clients).Nodup)
    ∧ ((receive_public_chat stPeerCase 9 (publicChatEnvelope 1 0)).1 = stPeerCase
    ∧ (receive_public_chat stPeerCase 9 (publicChatEnvelope 1 0)).2.1
      = dictKeys stPeerCase.clients
    ∧ ((receive_public_chat stPeerCase 9 (publicChatEnvelope 1 0)).2.1).Nodup
    ∧ (receive_public_chat stPeerCase 9 (publicChatEnvelope 1 0)).2.2 = false
    ∧ ((receive_public_chat stPeerCase 9 (publicChatEnvelope 1 0)).2.2 = true →
        dictGet stPeerCase.clients 9 ≠ none)) := by
  refine ⟨⟨rfl, rfl, rfl, by decide, by decide, by decide⟩, ?_⟩
  exact public_chat_from_peer_no_rebroadcast stPeerCase 9 "B"
    (publicChatEnvelope 1 0) publicChatInner "fp" "hi"
    stPeerCase 9 (publicChatEnvelope 1 0)
    rfl rfl rfl (by decide) (by decide) (by decide)

/-! ## Claim C10: public_chat from an unknown link is dropped -/

/-- C10: a well-formed `public_chat` arriving on a link that is neither a
registered client nor a recorded neighbour is dropped: no deliveries, no
re-broadcast, state (clients, neighbour map, roster) unchanged. -/
theorem public_chat_unknown_link_dropped
    (st : ServerState) (ws : Link) (request : SignedEnvelope)
    (d : InnerData) (f m : String)
    (hdata : request.data = some d) (hs : d.sender = some f)
    (hm : d.message = some m)
    (h1 : dictGet st.clients ws = none)
    (h2 : dictGet st.neighbour_websockets ws = none) :
    receive_public_chat st ws request = (st, [], false) := by
  simp [receive_public_chat, hdata, hs, hm, h1, h2]

/-- Witness for C10: link 5 has neither a client record nor a neighbour
record in `stTwoClients`. -/
theorem public_chat_unknown_link_dropped_witness :
    ((publicChatEnvelope 1 0).data = some publicChatInner
    ∧ publicChatInner.sender = some "fp"
    ∧ publicChatInner.message = some "hi"
    ∧ dictGet stTwoClients.clients 5 = none
    ∧ dictGet stTwoClients.neighbour_websockets 5 = none)
    ∧ receive_public_chat stTwoClients 5 (publicChatEnvelope 1 0)
      = (stTwoClients, [], false) := by
  refine ⟨⟨rfl, rfl, rfl, by decide, by decide⟩, ?_⟩
  exact public_chat_unknown_link_dropped stTwoClients 5 (publicChatEnvelope 1 0)
    publicChatInner "fp" "hi" rfl rfl rfl (by decide) (by decide)

/-! ## Claim C9: send-failure teardown -/

theorem find_active_server_key_mem (activeServers : List (Link × String))
    (u : String) (w : Link) (h : find_active_server activeServers u = some w) :
    w ∈ dictKeys activeServers := by
  induction activeServers with
  | nil => simp [find_active_server] at h
  | cons hd tl ih =>
    obtain ⟨w0, u0⟩ := hd
    by_cases hu : u0 = u
    · rw [find_active_server, if_pos hu] at h
      injection h with h
      simp [dictKeys, h]
    · rw [find_active_server, if_neg hu] at h
      simp [dictKeys]
      right
      simpa [dictKeys] using ih h

theorem find_active_server_get (activeServers : List (Link × String))
    (u : String) (w : Link) (hnd : (dictKeys activeServers).Nodup)
    (h : find_active_server activeServers u = some w) :
    dictGet activeServers w = some u := by
  induction activeServers with
  | nil => simp [find_active_server] at h
  | cons hd tl ih =>
    obtain ⟨w0, u0⟩ := hd
    by_cases hu : u0 = u
    · rw [find_active_server, if_pos hu] at h
      injection h with h
      rw [dictGet, if_pos h, hu]
    · rw [find_active_server, if_neg hu] at h
      have hkey := find_active_server_key_mem tl u w h
      have hnd2 : (dictKeys tl).Nodup := by
        simpa [dictKeys] using (List.nodup_cons.mp (by simpa [dictKeys] using hnd)).2
      have hw0 : w0 ∉ dictKeys tl :=
        (List.nodup_cons.mp (by simpa [dictKeys] using hnd)).1
      have hne : ¬ w0 = w := fun heq => hw0 (heq ▸ hkey)
      rw [dictGet, if_neg hne]
      exact ih hnd2 h

/-- C9 counterexample: in a server whose outbound link 5 carries peer
`"B"` (inbound link 9) with a roster entry for `"B"`, a failed
`send_response` on the neighbour link removes the active link but the
roster entry for `"B"` is retained, NOT deleted; and a failed
`send_request` (the broadcast path) performs no teardown at all —
refuting the claim that a failed send deletes `roster[peer]`. -/
theorem send_failure_roster_retained :
    ¬ dictGet (send_response_fail ⟨[], [(9, "B")], [(5, "B"), (6, "C")],
        [("B", ["PEMB"])]⟩ 9).clients_across_servers "B" = none
    ∧ (send_response_fail ⟨[], [(9, "B")], [(5, "B"), (6, "C")],
        [("B", ["PEMB"])]⟩ 9).active_servers = [(6, "C")]
    ∧ send_request_fail ⟨[], [(9, "B")], [(5, "B"), (6, "C")], [("B", ["PEMB"])]⟩
      = ⟨[], [(9, "B")], [(5, "B"), (6, "C")], [("B", ["PEMB"])]⟩ := by
  refine ⟨by decide, by decide, rfl⟩

/-- C9 as amended: when a `send_response` to a neighbour link fails, the
first active link registered under the URL of that neighbour is removed from
the active set, while the roster, the client table, the neighbour map,
and the active links of every other peer are unchanged; a failed `send_request`
changes no state at all. -/
theorem send_failure_teardown_amended
    (st : ServerState) (ws : Link) (u : String) (w2 : Link) (v : String)
    (h1 : dictGet st.clients ws = none)
    (h2 : dictGet st.neighbour_websockets ws = some u)
    (h3 : (dictKeys st.active_servers).Nodup)
    (h4 : dictGet st.active_servers w2 = some v) (h5 : v ≠ u) :
    (send_response_fail st ws).clients_across_servers = st.clients_across_servers
    ∧ (send_response_fail st ws).clients = st.clients
    ∧ (send_response_fail st ws).neighbour_websockets = st.neighbour_websockets
    ∧ (send_response_fail st ws).active_servers
      = remove_active_server st.active_servers u
    ∧ dictGet (send_response_fail st ws).active_servers w2 = some v
    ∧ send_request_fail st = st := by
  have hstep : send_response_fail st ws
      = { st with active_servers := remove_active_server st.active_servers u } := by
    unfold send_response_fail
    rw [h1, h2]
  refine ⟨by rw [hstep], by rw [hstep], by rw [hstep], by rw [hstep], ?_, rfl⟩
  rw [hstep]
  show dictGet (remove_active_server st.active_servers u) w2 = some v
  unfold remove_active_server
  cases hfind : find_active_server st.active_servers u with
  | none => exact h4
  | some w =>
    have hw : dictGet st.active_servers w = some u :=
      find_active_server_get st.active_servers u w h3 hfind
    have hne : w2 ≠ w := by
      intro heq
      rw [heq, hw] at h4
      exact h5 (by injection h4 with h4; exact h4.symm)
    rw [dictGet_pop_ne st.active_servers w w2 hne]
    exact h4

/-- Witness for the amended C9 on the concrete state of the
counterexample, checking that peer `"C"` on link 6 is untouched. -/
theorem send_failure_teardown_amended_witness :
    (dictGet (⟨[], [(9, "B")], [(5, "B"), (6, "C")], [("B", ["PEMB"])]⟩ : ServerState).clients 9 = none
    ∧ dictGet (⟨[], [(9, "B")], [(5, "B"), (6, "C")], [("B", ["PEMB"])]⟩ : ServerState).neighbour_websockets 9 = some "B"
    ∧ (dictKeys (⟨[], [(9, "B")], [(5, "B"), (6, "C")], [("B", ["PEMB"])]⟩ : ServerState).active_servers).Nodup
    ∧ dictGet (⟨[], [(9, "B")], [(5, "B"), (6, "C")], [("B", ["PEMB"])]⟩ : ServerState).active_servers 6 = some "C"
    ∧ ("C" : String) ≠ "B")
    ∧ ((send_response_fail ⟨[], [(9, "B")], [(5, "B"), (6, "C")], [("B", ["PEMB"])]⟩ 9).clients_across_servers
      = [("B", ["PEMB"])]
    ∧ (send_response_fail ⟨[], [(9, "B")], [(5, "B"), (6, "C")], [("B", ["PEMB"])]⟩ 9).clients = []
    ∧ (send_response_fail ⟨[], [(9, "B")], [(5, "B"), (6, "C")], [("B", ["PEMB"])]⟩ 9).neighbour_websockets = [(9, "B")]
    ∧ (send_response_fail ⟨[], [(9, "B")], [(5, "B"), (6, "C")], [("B", ["PEMB"])]⟩ 9).active_servers
      = remove_active_server [(5, "B"), (6, "C")] "B"
    ∧ dictGet (send_response_fail ⟨[], [(9, "B")], [(5, "B"), (6, "C")], [("B", ["PEMB"])]⟩ 9).active_servers 6 = some "C"
    ∧ send_request_fail ⟨[], [(9, "B")], [(5, "B"), (6, "C")], [("B", ["PEMB"])]⟩
      = ⟨[], [(9, "B")], [(5, "B"), (6, "C")], [("B", ["PEMB"])]⟩) := by
  refine ⟨⟨by decide, by decide, by decide, by decide, by decide⟩, ?_⟩
  exact send_failure_teardown_amended
    ⟨[], [(9, "B")], [(5, "B"), (6, "C")], [("B", ["PEMB"])]⟩ 9 "B" 6 "C"
    (by decide) (by decide) (by decide) (by decide) (by decide)
